import Mathlib

/-!
Verification of the temporal aggregation engine of the Wassermelder
water-meter application (`src/server.js`, function `calculateStats`).

The embedding models:
* timestamps as milliseconds since the Unix epoch (`Int`); the JavaScript
  `Date(year, month, day)` constructor (local time assumed UTC, month
  normalized over `ℤ`) is embedded via the standard civil-calendar
  day-count algorithm;
* meter values and rates as rationals (`ℚ`), idealizing IEEE floats;
* `Math.round` as `⌊x + 1/2⌋`, which matches JavaScript on halves
  (rounding toward +∞);
* `Array.prototype.sort` with comparator `new Date(a.date) - new Date(b.date)`
  as a stable merge sort on the `date` field (ES2019 requires stability);
* the locale-formatted `month` / `week` labels by the raw bucket-start
  timestamp (the spec treats label formatting as a presentation concern
  outside the aggregation contract).

Each block of `calculateStats` is embedded as its own definition and the
blocks are assembled in `calculateStats` below, mirroring the source
line by line.  The dead `monthReadings` filter of the source (it is
computed and never used) is omitted.
-/

namespace Wassermelder

/-- One meter reading as stored in `data.json`: an opaque id, a timestamp
(milliseconds since epoch), the cumulative meter value in m³, and the
metadata fields that the aggregation is not supposed to consult. -/
structure Reading where
  id : String
  date : Int
  value : ℚ
  confidence : Option String
  notes : Option String
  image : Option String
  deriving DecidableEq, Repr

/-- Default reading used to model JavaScript's out-of-bounds array access;
every access in the embedding is guarded exactly as in the source. -/
def dfltReading : Reading := ⟨"", 0, 0, none, none, none⟩

/-- `1000 * 60 * 60 * 24`, the divisor used throughout `server.js`. -/
def msPerDay : Int := 1000 * 60 * 60 * 24

/-- `(new Date(b) - new Date(a)) / (1000*60*60*24)`: elapsed fractional days. -/
def daysBetween (a b : Int) : ℚ := ((b - a : Int) : ℚ) / (msPerDay : ℚ)

/-- JavaScript `Math.round`: round half toward positive infinity. -/
def jsRound (q : ℚ) : Int := ⌊q + 1 / 2⌋

/-- `Math.round(q * 10) / 10`: round to one decimal place. -/
def round1 (q : ℚ) : ℚ := (jsRound (q * 10) : ℚ) / 10

/-- Days since 1970-01-01 of the civil date `y-m-d` (`m ∈ [1,12]`, proleptic
Gregorian; `d` may lie outside `[1,31]`, the count is linear in `d` exactly
as in the JavaScript `Date` constructor). -/
def daysFromCivil (y m d : Int) : Int :=
  let yy := if m ≤ 2 then y - 1 else y
  let era := Int.fdiv yy 400
  let yoe := yy - era * 400
  let mp := Int.emod (m + 9) 12
  let doy := Int.fdiv (153 * mp + 2) 5 + d - 1
  let doe := yoe * 365 + Int.fdiv yoe 4 - Int.fdiv yoe 100 + doy
  era * 146097 + doe - 719468

/-- `new Date(year, month, day).getTime()` with the timezone fixed to UTC:
JavaScript normalizes an arbitrary integer `month` into year `year + ⌊month/12⌋`
and month `month mod 12` (0-based). -/
def jsDateMs (year month day : Int) : Int :=
  let y := year + Int.fdiv month 12
  let m := Int.emod month 12
  daysFromCivil y (m + 1) day * msPerDay

/-- The injected time reference: `now.getTime()`, `now.getFullYear()`,
`now.getMonth()` (0-based) as read by `calculateStats`. -/
structure Now where
  ms : Int
  year : Int
  month : Int
  deriving DecidableEq, Repr

/-- `[...readings].sort((a, b) => new Date(a.date) - new Date(b.date))`:
a stable sort of a copy of the input, ascending by timestamp. -/
def sortReadings (readings : List Reading) : List Reading :=
  readings.mergeSort (fun a b => decide (a.date ≤ b.date))

/-- The `lastInterval` record of the result. -/
structure LastInterval where
  days : ℚ
  liters : ℚ
  litersPerDay : ℚ
  startDate : Int
  endDate : Int
  deriving DecidableEq, Repr

/-- The `yearStats` record of the result. -/
structure YearStats where
  totalLiters : Int
  avgLitersPerDay : ℚ
  days : Int
  deriving DecidableEq, Repr

/-- One entry of `monthlyData`; the locale label is modelled by the raw
bucket-start timestamp. -/
structure MonthEntry where
  monthStart : Int
  litersPerDay : Option ℚ
  deriving DecidableEq, Repr

/-- One entry of `weeklyData`; the locale label is modelled by the raw
bucket-start timestamp. -/
structure WeekEntry where
  weekStart : Int
  litersPerDay : Option ℚ
  deriving DecidableEq, Repr

/-- The statistics structure returned by `calculateStats`; `none` stands
for the JavaScript `null`. -/
structure StatsResult where
  lastInterval : Option LastInterval
  yearStats : Option YearStats
  monthlyData : List MonthEntry
  weeklyData : List WeekEntry
  deriving DecidableEq, Repr

/-- `l[l.length - 1]` on a sorted list: its latest element (default-guarded). -/
def lastOf (l : List Reading) : Reading := l.getD (l.length - 1) dfltReading

/-- Lines 120–133 of `server.js`: the most recent inter-reading interval. -/
def mkLastInterval (sorted : List Reading) : LastInterval :=
  let lastReading := sorted.getD (sorted.length - 1) dfltReading
  let prevReading := sorted.getD (sorted.length - 2) dfltReading
  let lastIntervalDays := daysBetween prevReading.date lastReading.date
  let lastConsumption := (lastReading.value - prevReading.value) * 1000
  let lastConsumptionPerDay :=
    if 0 < lastIntervalDays then lastConsumption / lastIntervalDays else 0
  { days := round1 lastIntervalDays
    liters := round1 lastConsumption
    litersPerDay := round1 lastConsumptionPerDay
    startDate := prevReading.date
    endDate := lastReading.date }

/-- `new Date(now.getFullYear(), 0, 1)`. -/
def startOfYearMs (now : Now) : Int := jsDateMs now.year 0 1

/-- Lines 136–152 of `server.js`: the year-to-date statistics. -/
def mkYearStats (sorted : List Reading) (now : Now) : Option YearStats :=
  let yearReadings := sorted.filter (fun r => decide (startOfYearMs now ≤ r.date))
  if 2 ≤ yearReadings.length then
    let firstYearReading := yearReadings.getD 0 dfltReading
    let lastYearReading := yearReadings.getD (yearReadings.length - 1) dfltReading
    let yearDays := daysBetween firstYearReading.date lastYearReading.date
    let yearConsumption := (lastYearReading.value - firstYearReading.value) * 1000
    some { totalLiters := jsRound yearConsumption
           avgLitersPerDay := if 0 < yearDays then round1 (yearConsumption / yearDays) else 0
           days := jsRound yearDays }
  else none

/-- `new Date(now.getFullYear(), now.getMonth() - i, 1)`. -/
def monthBucketStart (now : Now) (i : Int) : Int :=
  jsDateMs now.year (now.month - i) 1

/-- `new Date(monthDate.getFullYear(), monthDate.getMonth() + 1, 0)`:
the last day (at midnight) of the bucket's month, built from the
normalized year/month components of the bucket start. -/
def monthBucketEnd (now : Now) (i : Int) : Int :=
  let y := now.year + Int.fdiv (now.month - i) 12
  let m := Int.emod (now.month - i) 12
  jsDateMs y (m + 1) 0

/-- Lines 156–188 of `server.js`: one iteration of the monthly loop
(`i` counts months back from the current one). -/
def mkMonthEntry (sorted : List Reading) (now : Now) (i : Int) : MonthEntry :=
  let monthDate := monthBucketStart now i
  let monthEnd := monthBucketEnd now i
  let readingsBefore := sorted.filter (fun r => decide (r.date < monthDate))
  let readingsInOrBefore := sorted.filter (fun r => decide (r.date ≤ monthEnd))
  let cd : ℚ × ℚ :=
    if 0 < readingsBefore.length ∧ readingsBefore.length < readingsInOrBefore.length then
      let startReading := readingsBefore.getD (readingsBefore.length - 1) dfltReading
      let endReading := readingsInOrBefore.getD (readingsInOrBefore.length - 1) dfltReading
      if startReading.date < endReading.date then
        ((endReading.value - startReading.value) * 1000,
          daysBetween startReading.date endReading.date)
      else (0, 0)
    else (0, 0)
  { monthStart := monthDate
    litersPerDay := if 0 < cd.2 then some (round1 (cd.1 / cd.2)) else none }

/-- `7 * 24 * 60 * 60 * 1000`. -/
def msPerWeek : Int := 7 * msPerDay

/-- `new Date(now.getTime() - (i + 1) * 7*24*60*60*1000)`. -/
def weekBucketStart (now : Now) (i : Int) : Int := now.ms - (i + 1) * msPerWeek

/-- `new Date(now.getTime() - i * 7*24*60*60*1000)`. -/
def weekBucketEnd (now : Now) (i : Int) : Int := now.ms - i * msPerWeek

/-- Lines 195–221 of `server.js`: one iteration of the weekly loop
(`i` counts 7-day buckets back from `now`). -/
def mkWeekEntry (sorted : List Reading) (now : Now) (i : Int) : WeekEntry :=
  let weekStart := weekBucketStart now i
  let weekEnd := weekBucketEnd now i
  let readingsBefore := sorted.filter (fun r => decide (r.date ≤ weekStart))
  let readingsAfter := sorted.filter (fun r => decide (r.date ≤ weekEnd))
  let litersPerDay : Option ℚ :=
    if 0 < readingsBefore.length ∧ readingsBefore.length < readingsAfter.length then
      let startReading := readingsBefore.getD (readingsBefore.length - 1) dfltReading
      let endReading := readingsAfter.getD (readingsAfter.length - 1) dfltReading
      let days := daysBetween startReading.date endReading.date
      let consumption := (endReading.value - startReading.value) * 1000
      if 0 < days then some (round1 (consumption / days)) else none
    else none
  { weekStart := weekStart
    litersPerDay := litersPerDay }

/-- Lines 107–229 of `server.js`: the whole aggregation engine.  The
monthly loop runs `i = 11 .. 0` and pushes in that order, the weekly loop
runs `i = 51 .. 0`. -/
def calculateStats (readings : List Reading) (now : Now) : StatsResult :=
  if readings.length < 2 then
    { lastInterval := none, yearStats := none, monthlyData := [], weeklyData := [] }
  else
    let sorted := sortReadings readings
    { lastInterval := some (mkLastInterval sorted)
      yearStats := mkYearStats sorted now
      monthlyData := (List.range 12).map (fun j => mkMonthEntry sorted now (11 - (j : Int)))
      weeklyData := (List.range 52).map (fun j => mkWeekEntry sorted now (51 - (j : Int))) }

/-! ### Spec-side abbreviations

Named forms of the sub-expressions of `calculateStats` that the spec's
sentences talk about: the bracket-lookup lists of each bucket and the
year-to-date filter.  Each unfolds definitionally to the corresponding
code expression. -/

/-- The monthly loop's `readingsBefore` list for bucket `i`
(readings strictly before the bucket start). -/
def monthBefore (l : List Reading) (now : Now) (i : Int) : List Reading :=
  (sortReadings l).filter (fun r => decide (r.date < monthBucketStart now i))

/-- The monthly loop's `readingsInOrBefore` list for bucket `i`
(readings at or before the bucket end). -/
def monthThrough (l : List Reading) (now : Now) (i : Int) : List Reading :=
  (sortReadings l).filter (fun r => decide (r.date ≤ monthBucketEnd now i))

/-- The weekly loop's `readingsBefore` list for bucket `i`
(readings at or before the bucket start). -/
def weekBefore (l : List Reading) (now : Now) (i : Int) : List Reading :=
  (sortReadings l).filter (fun r => decide (r.date ≤ weekBucketStart now i))

/-- The weekly loop's `readingsAfter` list for bucket `i`
(readings at or before the bucket end). -/
def weekThrough (l : List Reading) (now : Now) (i : Int) : List Reading :=
  (sortReadings l).filter (fun r => decide (r.date ≤ weekBucketEnd now i))

/-- The year-to-date filter: readings with timestamp on or after January 1
of the year containing `now`. -/
def yearReadingsOf (l : List Reading) (now : Now) : List Reading :=
  (sortReadings l).filter (fun r => decide (startOfYearMs now ≤ r.date))

/-- The data the aggregation math is allowed to depend on: timestamp and
meter value. -/
def proj (r : Reading) : Int × ℚ := (r.date, r.value)

/-! ### Concrete inputs used by the spec's scenarios and by witnesses -/

/-- Reading of 2024-01-01, meter value 0 m³. -/
def rJan : Reading := ⟨"1", jsDateMs 2024 0 1, 0, none, none, none⟩

/-- Reading of 2024-12-31, meter value 365 m³. -/
def rDec : Reading := ⟨"2", jsDateMs 2024 11 31, 365, none, none, none⟩

/-- `now = 2025-01-01`. -/
def nowNY : Now := ⟨jsDateMs 2025 0 1, 2025, 0⟩

/-- Reading of 2024-01-01, meter value 100.000 m³. -/
def rV100 : Reading := ⟨"3", jsDateMs 2024 0 1, 100, none, none, none⟩

/-- Reading of 2024-02-01, meter value 103.000 m³. -/
def rV103 : Reading := ⟨"4", jsDateMs 2024 1 1, 103, none, none, none⟩

/-- `now = 2024-06-02`. -/
def nowJun : Now := ⟨jsDateMs 2024 5 2, 2024, 5⟩

/-- A reading taken on 2024-06-01 (within the year of `nowJun`). -/
def rJun1 : Reading := ⟨"5", jsDateMs 2024 5 1, 7, none, none, none⟩

/-- A second reading at the very same instant as `rJun1`, different value. -/
def rJun1b : Reading := ⟨"6", jsDateMs 2024 5 1, 8, none, none, none⟩

/-- A reading taken on 2024-06-10. -/
def rJun10 : Reading := ⟨"7", jsDateMs 2024 5 10, 8, none, none, none⟩

/-- `now = 2024-06-15`. -/
def nowJun15 : Now := ⟨jsDateMs 2024 5 15, 2024, 5⟩

/-- Reading of 2024-02-15, meter value 1 m³. -/
def rFeb15 : Reading := ⟨"8", jsDateMs 2024 1 15, 1, none, none, none⟩

/-- Same timestamp/value as `rV100` but entirely different metadata. -/
def rMeta1 : Reading :=
  ⟨"x", jsDateMs 2024 0 1, 100, some "low", some "note-a", some "img.jpg"⟩

/-- Same timestamp/value as `rV103` but entirely different metadata. -/
def rMeta2 : Reading := ⟨"y", jsDateMs 2024 1 1, 103, none, some "note-b", none⟩

/-! ### Helper lemmas about the sorted list -/

lemma sortReadings_perm (l : List Reading) : List.Perm (sortReadings l) l :=
  List.mergeSort_perm l _

lemma sortReadings_length (l : List Reading) : (sortReadings l).length = l.length :=
  (sortReadings_perm l).length_eq

lemma sortReadings_sorted (l : List Reading) :
    (sortReadings l).Pairwise (fun a b => a.date ≤ b.date) := by
  have h := @List.sorted_mergeSort Reading
    (fun a b : Reading => decide (a.date ≤ b.date))
    (fun a b c hab hbc => by
      simp only [decide_eq_true_eq] at *; omega)
    (fun a b => by
      simp only [Bool.or_eq_true, decide_eq_true_eq]; omega) l
  exact h.imp (fun h => of_decide_eq_true h)

lemma mem_sortReadings {l : List Reading} {r : Reading} :
    r ∈ sortReadings l ↔ r ∈ l :=
  (sortReadings_perm l).mem_iff

/-- A list already sorted ascending by timestamp is left unchanged
(stability of the sort on an already-ordered input). -/
lemma sortReadings_of_sorted {l : List Reading}
    (h : l.Pairwise (fun a b => a.date ≤ b.date)) : sortReadings l = l :=
  List.mergeSort_of_sorted (h.imp (fun hab => decide_eq_true hab))

/-- Evaluation form of `calculateStats` for an already-sorted input with at
least two readings; lets concrete computations reduce in the kernel. -/
lemma calculateStats_of_sorted {l : List Reading} (now : Now)
    (hs : l.Pairwise (fun a b => a.date ≤ b.date)) (h2 : ¬ l.length < 2) :
    calculateStats l now =
      { lastInterval := some (mkLastInterval l)
        yearStats := mkYearStats l now
        monthlyData := (List.range 12).map (fun j => mkMonthEntry l now (11 - (j : Int)))
        weeklyData := (List.range 52).map (fun j => mkWeekEntry l now (51 - (j : Int))) } := by
  unfold calculateStats
  rw [if_neg h2, sortReadings_of_sorted hs]

/-- Pointwise implication of the filtering predicates turns one filter
into a sublist of the other. -/
lemma filter_sublist_filter_of_imp {p q : Reading → Bool} :
    ∀ (l : List Reading), (∀ a ∈ l, p a = true → q a = true) →
      List.Sublist (l.filter p) (l.filter q)
  | [], _ => by simp
  | a :: t, h => by
    have ih := filter_sublist_filter_of_imp t
      (fun x hx hpx => h x (List.mem_cons_of_mem a hx) hpx)
    by_cases hpa : p a = true
    · have hqa : q a = true := h a (List.mem_cons_self a t) hpa
      simpa [List.filter_cons, hpa, hqa] using ih.cons₂ a
    · by_cases hqa : q a = true
      · simpa [List.filter_cons, hpa, hqa] using (ih.cons a)
      · simpa [List.filter_cons, hpa, hqa] using ih

lemma length_filter_le_of_imp {p q : Reading → Bool} (l : List Reading)
    (h : ∀ a ∈ l, p a = true → q a = true) :
    (l.filter p).length ≤ (l.filter q).length :=
  (filter_sublist_filter_of_imp l h).length_le

/-- A member satisfying `q` but not `p` makes the `q`-filter strictly
longer than the `p`-filter. -/
lemma length_filter_lt_of_witness {p q : Reading → Bool} (l : List Reading)
    (h : ∀ a ∈ l, p a = true → q a = true)
    {x : Reading} (hx : x ∈ l) (hqx : q x = true) (hpx : p x = false) :
    (l.filter p).length < (l.filter q).length := by
  have hsub := filter_sublist_filter_of_imp l h
  rcases Nat.lt_or_ge (l.filter p).length (l.filter q).length with hlt | hge
  · exact hlt
  · exfalso
    have heq : l.filter p = l.filter q :=
      hsub.eq_of_length (Nat.le_antisymm hsub.length_le hge)
    have hmem : x ∈ l.filter q := List.mem_filter.mpr ⟨hx, hqx⟩
    rw [← heq] at hmem
    exact absurd (List.mem_filter.mp hmem).2 (by simp [hpx])

lemma lastOf_mem {S : List Reading} (h : S ≠ []) : lastOf S ∈ S := by
  have hlen : S.length - 1 < S.length := by
    cases S with
    | nil => exact absurd rfl h
    | cons a t => simp
  rw [lastOf, List.getD_eq_getElem S dfltReading hlen]
  exact S.getElem_mem hlen

lemma lastOf_cons_cons (a b : Reading) (t : List Reading) :
    lastOf (a :: b :: t) = lastOf (b :: t) := by
  simp [lastOf]

/-- In a list sorted ascending by timestamp, the last element has the
latest timestamp. -/
lemma date_le_lastOf :
    ∀ {S : List Reading}, S.Pairwise (fun a b => a.date ≤ b.date) →
      ∀ {x : Reading}, x ∈ S → x.date ≤ (lastOf S).date
  | [], _, _, hx => by simp at hx
  | [a], _, x, hx => by
    simp only [List.mem_singleton] at hx
    subst hx; simp [lastOf]
  | a :: b :: t, hs, x, hx => by
    rw [lastOf_cons_cons]
    rcases List.mem_cons.mp hx with rfl | hx
    · have hmem : lastOf (b :: t) ∈ b :: t := lastOf_mem (by simp)
      exact (List.pairwise_cons.mp hs).1 _ hmem
    · exact date_le_lastOf (List.pairwise_cons.mp hs).2 hx

/-- Key bracketing fact: if `p` is downward-closed along timestamps and the
`p`-filter is strictly shorter than the `q`-filter of a sorted list, then
the last element of the `q`-filter does not satisfy `p`. -/
lemma p_lastOf_filter_q_false {S : List Reading}
    (hs : S.Pairwise (fun a b => a.date ≤ b.date))
    {p q : Reading → Bool}
    (hdown : ∀ x y : Reading, x.date ≤ y.date → p y = true → p x = true)
    (hlen : (S.filter p).length < (S.filter q).length) :
    p (lastOf (S.filter q)) = false := by
  by_contra hcontra
  have hpl : p (lastOf (S.filter q)) = true := by
    cases h : p (lastOf (S.filter q)) with
    | false => exact absurd h hcontra
    | true => rfl
  have hQs : (S.filter q).Pairwise (fun a b => a.date ≤ b.date) := hs.filter q
  have hall : ∀ a ∈ S, q a = true → p a = true := by
    intro a ha hqa
    have haQ : a ∈ S.filter q := List.mem_filter.mpr ⟨ha, hqa⟩
    exact hdown a _ (date_le_lastOf hQs haQ) hpl
  exact absurd (length_filter_le_of_imp S hall) (by omega)

/-- The delimiting pair of a month bucket always spans strictly positive
time: the `before` endpoint is strictly older than the `through` endpoint. -/
lemma month_bracket_lt {S : List Reading}
    (hs : S.Pairwise (fun a b => a.date ≤ b.date)) (A B : Int)
    (h0 : 0 < (S.filter (fun r => decide (r.date < A))).length)
    (hlen : (S.filter (fun r => decide (r.date < A))).length <
            (S.filter (fun r => decide (r.date ≤ B))).length) :
    (lastOf (S.filter (fun r => decide (r.date < A)))).date <
    (lastOf (S.filter (fun r => decide (r.date ≤ B)))).date := by
  have hPne : S.filter (fun r => decide (r.date < A)) ≠ [] := by
    intro hnil; rw [hnil] at h0; simp at h0
  have hPmem := lastOf_mem hPne
  have hPlt : (lastOf (S.filter (fun r => decide (r.date < A)))).date < A := by
    have := (List.mem_filter.mp hPmem).2
    simpa using this
  have hQ := p_lastOf_filter_q_false hs
    (p := fun r => decide (r.date < A)) (q := fun r => decide (r.date ≤ B))
    (fun x y hxy hy => by simp only [decide_eq_true_eq] at *; omega) hlen
  have hQge : A ≤ (lastOf (S.filter (fun r => decide (r.date ≤ B)))).date := by
    simpa using hQ
  omega

/-- The delimiting pair of a week bucket always spans strictly positive
time. -/
lemma week_bracket_lt {S : List Reading}
    (hs : S.Pairwise (fun a b => a.date ≤ b.date)) (A B : Int)
    (h0 : 0 < (S.filter (fun r => decide (r.date ≤ A))).length)
    (hlen : (S.filter (fun r => decide (r.date ≤ A))).length <
            (S.filter (fun r => decide (r.date ≤ B))).length) :
    (lastOf (S.filter (fun r => decide (r.date ≤ A)))).date <
    (lastOf (S.filter (fun r => decide (r.date ≤ B)))).date := by
  have hPne : S.filter (fun r => decide (r.date ≤ A)) ≠ [] := by
    intro hnil; rw [hnil] at h0; simp at h0
  have hPmem := lastOf_mem hPne
  have hPle : (lastOf (S.filter (fun r => decide (r.date ≤ A)))).date ≤ A := by
    have := (List.mem_filter.mp hPmem).2
    simpa using this
  have hQ := p_lastOf_filter_q_false hs
    (p := fun r => decide (r.date ≤ A)) (q := fun r => decide (r.date ≤ B))
    (fun x y hxy hy => by simp only [decide_eq_true_eq] at *; omega) hlen
  have hQgt : A < (lastOf (S.filter (fun r => decide (r.date ≤ B)))).date := by
    simpa using hQ
  omega

/-! ### Bridging `arr[arr.length - k]` accesses with list decompositions -/

lemma getD_pair_last (rest : List Reading) (p q d : Reading) :
    (rest ++ [p, q]).getD ((rest ++ [p, q]).length - 1) d = q := by
  have hlen : (rest ++ [p, q]).length = rest.length + 2 := by simp
  rw [List.getD_eq_getElem?_getD, hlen]
  have h1 : rest.length + 2 - 1 = rest.length + 1 := by omega
  rw [h1, List.getElem?_append_right (by omega)]
  have h2 : rest.length + 1 - rest.length = 1 := by omega
  rw [h2]
  rfl

lemma getD_pair_prev (rest : List Reading) (p q d : Reading) :
    (rest ++ [p, q]).getD ((rest ++ [p, q]).length - 2) d = p := by
  have hlen : (rest ++ [p, q]).length = rest.length + 2 := by simp
  rw [List.getD_eq_getElem?_getD, hlen]
  have h1 : rest.length + 2 - 2 = rest.length := by omega
  rw [h1, List.getElem?_append_right (by omega)]
  have h2 : rest.length - rest.length = 0 := by omega
  rw [h2]
  rfl

lemma getD_append_single (t : List Reading) (b d : Reading) :
    (t ++ [b]).getD ((t ++ [b]).length - 1) d = b := by
  have hlen : (t ++ [b]).length = t.length + 1 := by simp
  rw [List.getD_eq_getElem?_getD, hlen]
  have h1 : t.length + 1 - 1 = t.length := by omega
  rw [h1, List.getElem?_append_right (by omega)]
  have h2 : t.length - t.length = 0 := by omega
  rw [h2]
  rfl

lemma getD_cons_append_last (a : Reading) (mid : List Reading) (b d : Reading) :
    (a :: mid ++ [b]).getD ((a :: mid ++ [b]).length - 1) d = b :=
  getD_append_single (a :: mid) b d

/-- Any list with at least two elements splits off its final two. -/
lemma exists_pair_decomp {S : List Reading} (h : 2 ≤ S.length) :
    ∃ rest p q, S = rest ++ [p, q] := by
  match hrev : S.reverse with
  | [] =>
    have := congrArg List.length hrev
    simp only [List.length_reverse, List.length_nil] at this
    omega
  | [a] =>
    have := congrArg List.length hrev
    simp only [List.length_reverse, List.length_cons, List.length_nil] at this
    omega
  | a :: b :: t =>
    refine ⟨t.reverse, b, a, ?_⟩
    have := congrArg List.reverse hrev
    simpa [List.reverse_cons, List.append_assoc] using this

/-- `mkLastInterval` on a decomposed sorted list. -/
lemma mkLastInterval_decomp (rest : List Reading) (p q : Reading) :
    mkLastInterval (rest ++ [p, q]) =
      { days := round1 (daysBetween p.date q.date)
        liters := round1 ((q.value - p.value) * 1000)
        litersPerDay := round1 (if 0 < daysBetween p.date q.date then
          (q.value - p.value) * 1000 / daysBetween p.date q.date else 0)
        startDate := p.date
        endDate := q.date } := by
  unfold mkLastInterval
  rw [getD_pair_last, getD_pair_prev]

/-- `mkYearStats` when the year filter has at least two readings. -/
lemma mkYearStats_decomp (S : List Reading) (now : Now) (a : Reading)
    (mid : List Reading) (b : Reading)
    (hS : S.filter (fun r => decide (startOfYearMs now ≤ r.date)) = a :: mid ++ [b]) :
    mkYearStats S now = some
      { totalLiters := jsRound ((b.value - a.value) * 1000)
        avgLitersPerDay := if 0 < daysBetween a.date b.date then
          round1 ((b.value - a.value) * 1000 / daysBetween a.date b.date) else 0
        days := jsRound (daysBetween a.date b.date) } := by
  unfold mkYearStats
  rw [hS]
  have hlen : (a :: mid ++ [b]).length = mid.length + 2 := by simp
  rw [if_pos (by omega)]
  rw [getD_cons_append_last]
  have h0 : (a :: mid ++ [b]).getD 0 dfltReading = a := rfl
  rw [h0]

/-! ### Claims -/

/-- **C2, counterexample.**  The claim states that for an empty reading
list the monthly series has exactly 12 entries and the weekly series 52;
the code returns both series empty. -/
theorem claimC2_counterexample :
    ¬ ((calculateStats [] nowNY).monthlyData.length = 12 ∧
       (calculateStats [] nowNY).weeklyData.length = 52) := by decide

/-- **C2 (amended).**  For every input list with 0 or 1 readings the
returned statistics have `lastInterval` and `yearStats` unavailable and
both windowed series are returned as empty sequences (the source skips
the window loops entirely instead of emitting 12/52 "no data" entries). -/
theorem claimC2_thm (l : List Reading) (now : Now) (h : l.length < 2) :
    calculateStats l now =
      { lastInterval := none, yearStats := none
        monthlyData := [], weeklyData := [] } := by
  unfold calculateStats
  rw [if_pos h]

/-- Witness for C2: the empty list. -/
theorem claimC2_witness :
    ([] : List Reading).length < 2 ∧
    calculateStats [] nowNY =
      { lastInterval := none, yearStats := none
        monthlyData := [], weeklyData := [] } :=
  ⟨by decide, claimC2_thm [] nowNY (by decide)⟩

/-- **C3, counterexample.**  With readings on 2024-01-01 (v = 0) and
2024-12-31 (v = 365) and `now = 2025-01-01`, the December 2024 bucket
(position 10) shows 1000.0 L/day, but the November 2024 bucket
(position 9) — a month with no intervening reading — is "no data",
refuting the claim that every such month shows the same defined value. -/
theorem claimC3_counterexample :
    ((calculateStats [rJan, rDec] nowNY).monthlyData.map
        (fun e => e.litersPerDay))[10]? = some (some 1000) ∧
    ((calculateStats [rJan, rDec] nowNY).monthlyData.map
        (fun e => e.litersPerDay))[9]? = some none := by
  rw [calculateStats_of_sorted nowNY (by decide) (by decide)]
  constructor <;> with_unfolding_all rfl

/-- **C3 (amended).**  In the scenario of the claim the December 2024
bucket shows exactly 1000.0 L/day, and it is the only monthly bucket with
data: a bucket is bracketed only when one more reading falls at or before
its end than strictly before its start, so months without an intervening
reading stay "no data" even though the two readings span the whole year. -/
theorem claimC3_thm :
    (calculateStats [rJan, rDec] nowNY).monthlyData.map (fun e => e.litersPerDay) =
      [none, none, none, none, none, none, none, none, none, none,
        some 1000, none] := by
  rw [calculateStats_of_sorted nowNY (by decide) (by decide)]
  with_unfolding_all rfl

/-- **C4 (confirmed).**  For at least two readings, `lastInterval` is
computed from the final two readings of the timestamp-sorted list: days
as their fractional-day distance, liters as the value difference × 1000,
liters/day as their quotient guarded by strictly positive duration, each
rounded to one decimal; and the spec's concrete scenario holds. -/
theorem claimC4_thm :
    (∀ (l : List Reading) (now : Now), 2 ≤ l.length →
      ∃ rest p q, sortReadings l = rest ++ [p, q] ∧
        (calculateStats l now).lastInterval = some
          { days := round1 (daysBetween p.date q.date)
            liters := round1 ((q.value - p.value) * 1000)
            litersPerDay := round1 (if 0 < daysBetween p.date q.date then
              (q.value - p.value) * 1000 / daysBetween p.date q.date else 0)
            startDate := p.date
            endDate := q.date }) ∧
    (calculateStats [rV100, rV103] nowJun).lastInterval = some
      { days := 31, liters := 3000, litersPerDay := 96.8
        startDate := jsDateMs 2024 0 1, endDate := jsDateMs 2024 1 1 } := by
  constructor
  · intro l now h
    have hS : 2 ≤ (sortReadings l).length := by
      rw [sortReadings_length]; exact h
    obtain ⟨rest, p, q, hdec⟩ := exists_pair_decomp hS
    refine ⟨rest, p, q, hdec, ?_⟩
    unfold calculateStats
    rw [if_neg (by omega)]
    show some (mkLastInterval (sortReadings l)) = _
    rw [hdec, mkLastInterval_decomp]
  · rw [calculateStats_of_sorted nowJun (by decide) (by decide)]
    with_unfolding_all rfl

/-- Witness for C4: the spec's concrete pair of readings. -/
theorem claimC4_witness :
    2 ≤ ([rV100, rV103] : List Reading).length ∧
    ∃ rest p q, sortReadings [rV100, rV103] = rest ++ [p, q] ∧
      (calculateStats [rV100, rV103] nowJun).lastInterval = some
        { days := round1 (daysBetween p.date q.date)
          liters := round1 ((q.value - p.value) * 1000)
          litersPerDay := round1 (if 0 < daysBetween p.date q.date then
            (q.value - p.value) * 1000 / daysBetween p.date q.date else 0)
          startDate := p.date
          endDate := q.date } :=
  ⟨by decide, claimC4_thm.1 [rV100, rV103] nowJun (by decide)⟩

/-- The `yearStats` field of the full result, given a decomposition of the
year filter into first element / middle / last element. -/
lemma yearStats_of_decomp (l : List Reading) (now : Now) (a : Reading)
    (mid : List Reading) (b : Reading)
    (hdec : yearReadingsOf l now = a :: mid ++ [b]) :
    (calculateStats l now).yearStats = some
      { totalLiters := jsRound ((b.value - a.value) * 1000)
        avgLitersPerDay := if 0 < daysBetween a.date b.date then
          round1 ((b.value - a.value) * 1000 / daysBetween a.date b.date) else 0
        days := jsRound (daysBetween a.date b.date) } := by
  have hlen2 : 2 ≤ (yearReadingsOf l now).length := by
    rw [hdec]; simp
  have hl2 : 2 ≤ l.length := by
    have hle : (yearReadingsOf l now).length ≤ (sortReadings l).length :=
      List.length_filter_le _ _
    rw [sortReadings_length] at hle
    omega
  unfold calculateStats
  rw [if_neg (by omega)]
  show mkYearStats (sortReadings l) now = _
  exact mkYearStats_decomp _ now a mid b hdec

/-- **C5 (confirmed).**  `yearStats` considers exactly the sorted readings
with timestamp ≥ January 1 of `now`'s year (`yearReadingsOf`); with fewer
than two such readings it is unavailable; otherwise it reports the value
difference between the first and last qualifying readings × 1000 rounded
to the nearest integer, the elapsed time rounded to a whole day count, and
the unrounded quotient rounded to one decimal (0 for a non-positive span);
and the spec's single-reading scenario yields "unavailable". -/
theorem claimC5_thm :
    (∀ (l : List Reading) (now : Now) (a : Reading) (mid : List Reading) (b : Reading),
      yearReadingsOf l now = a :: mid ++ [b] →
        (calculateStats l now).yearStats = some
          { totalLiters := jsRound ((b.value - a.value) * 1000)
            avgLitersPerDay := if 0 < daysBetween a.date b.date then
              round1 ((b.value - a.value) * 1000 / daysBetween a.date b.date) else 0
            days := jsRound (daysBetween a.date b.date) }) ∧
    (∀ (l : List Reading) (now : Now), (yearReadingsOf l now).length < 2 →
      (calculateStats l now).yearStats = none) ∧
    (calculateStats [rJun1] nowJun).yearStats = none := by
  refine ⟨fun l now a mid b hdec => yearStats_of_decomp l now a mid b hdec, ?_,
    by with_unfolding_all rfl⟩
  · intro l now hlen
    by_cases hl : l.length < 2
    · unfold calculateStats
      rw [if_pos hl]
    · unfold calculateStats
      rw [if_neg hl]
      show mkYearStats (sortReadings l) now = none
      unfold mkYearStats
      rw [if_neg (by exact fun hc => absurd hc (by exact Nat.not_le.mpr hlen))]

/-- Witness for C5: two readings inside the year of `now = 2024-06-02`. -/
theorem claimC5_witness :
    yearReadingsOf [rV100, rV103] nowJun = rV100 :: [] ++ [rV103] ∧
    (calculateStats [rV100, rV103] nowJun).yearStats = some
      { totalLiters := 3000, avgLitersPerDay := 96.8, days := 31 } := by
  have hs : sortReadings [rV100, rV103] = [rV100, rV103] :=
    sortReadings_of_sorted (by decide)
  have hdec : yearReadingsOf [rV100, rV103] nowJun = rV100 :: [] ++ [rV103] := by
    unfold yearReadingsOf
    rw [hs]
    with_unfolding_all rfl
  exact ⟨hdec, (claimC5_thm.1 [rV100, rV103] nowJun rV100 [] rV103 hdec).trans
    (by with_unfolding_all rfl)⟩

/-! ### Arithmetic facts about elapsed time and rounding -/

lemma daysBetween_pos {a b : Int} (h : a < b) : 0 < daysBetween a b := by
  unfold daysBetween
  apply div_pos
  · have hab : (0 : Int) < b - a := by omega
    exact_mod_cast hab
  · norm_num [msPerDay]

lemma daysBetween_nonpos {a b : Int} (h : b ≤ a) : daysBetween a b ≤ 0 := by
  unfold daysBetween
  refine div_nonpos_iff.mpr (Or.inr ⟨?_, ?_⟩)
  · have hab : (b - a : Int) ≤ 0 := by omega
    exact_mod_cast hab
  · norm_num [msPerDay]

lemma round1_zero : round1 0 = 0 := by
  with_unfolding_all rfl

/-! ### Evaluation lemmas for the window buckets -/

/-- A month bucket whose guard conditions hold and whose delimiting pair
spans positive time carries the bracketed rate. -/
lemma mkMonthEntry_pos (sorted : List Reading) (now : Now) (i : Int)
    (h0 : 0 < (sorted.filter (fun r => decide (r.date < monthBucketStart now i))).length)
    (hlen : (sorted.filter (fun r => decide (r.date < monthBucketStart now i))).length <
            (sorted.filter (fun r => decide (r.date ≤ monthBucketEnd now i))).length)
    (hlt : (lastOf (sorted.filter (fun r => decide (r.date < monthBucketStart now i)))).date <
           (lastOf (sorted.filter (fun r => decide (r.date ≤ monthBucketEnd now i)))).date) :
    (mkMonthEntry sorted now i).litersPerDay = some (round1 (
      ((lastOf (sorted.filter (fun r => decide (r.date ≤ monthBucketEnd now i)))).value -
        (lastOf (sorted.filter (fun r => decide (r.date < monthBucketStart now i)))).value) * 1000 /
      daysBetween
        (lastOf (sorted.filter (fun r => decide (r.date < monthBucketStart now i)))).date
        (lastOf (sorted.filter (fun r => decide (r.date ≤ monthBucketEnd now i)))).date)) := by
  have hlt2 := hlt
  unfold lastOf at hlt2
  unfold mkMonthEntry lastOf
  dsimp only
  rw [if_pos (And.intro h0 hlen), if_pos hlt2]
  dsimp only
  rw [if_pos (daysBetween_pos hlt2)]

/-- A month bucket whose guard conditions fail carries no data. -/
lemma mkMonthEntry_none (sorted : List Reading) (now : Now) (i : Int)
    (h : ¬ (0 < (sorted.filter (fun r => decide (r.date < monthBucketStart now i))).length ∧
            (sorted.filter (fun r => decide (r.date < monthBucketStart now i))).length <
            (sorted.filter (fun r => decide (r.date ≤ monthBucketEnd now i))).length)) :
    (mkMonthEntry sorted now i).litersPerDay = none := by
  unfold mkMonthEntry
  dsimp only
  rw [if_neg h]
  dsimp only
  rw [if_neg (lt_irrefl (0 : ℚ))]

/-- A week bucket whose guard conditions hold carries the bracketed rate. -/
lemma mkWeekEntry_pos (sorted : List Reading) (now : Now) (i : Int)
    (h0 : 0 < (sorted.filter (fun r => decide (r.date ≤ weekBucketStart now i))).length)
    (hlen : (sorted.filter (fun r => decide (r.date ≤ weekBucketStart now i))).length <
            (sorted.filter (fun r => decide (r.date ≤ weekBucketEnd now i))).length)
    (hlt : (lastOf (sorted.filter (fun r => decide (r.date ≤ weekBucketStart now i)))).date <
           (lastOf (sorted.filter (fun r => decide (r.date ≤ weekBucketEnd now i)))).date) :
    (mkWeekEntry sorted now i).litersPerDay = some (round1 (
      ((lastOf (sorted.filter (fun r => decide (r.date ≤ weekBucketEnd now i)))).value -
        (lastOf (sorted.filter (fun r => decide (r.date ≤ weekBucketStart now i)))).value) * 1000 /
      daysBetween
        (lastOf (sorted.filter (fun r => decide (r.date ≤ weekBucketStart now i)))).date
        (lastOf (sorted.filter (fun r => decide (r.date ≤ weekBucketEnd now i)))).date)) := by
  have hlt2 := hlt
  unfold lastOf at hlt2
  unfold mkWeekEntry lastOf
  dsimp only
  rw [if_pos (And.intro h0 hlen), if_pos (daysBetween_pos hlt2)]

/-- A week bucket whose guard conditions fail carries no data. -/
lemma mkWeekEntry_none (sorted : List Reading) (now : Now) (i : Int)
    (h : ¬ (0 < (sorted.filter (fun r => decide (r.date ≤ weekBucketStart now i))).length ∧
            (sorted.filter (fun r => decide (r.date ≤ weekBucketStart now i))).length <
            (sorted.filter (fun r => decide (r.date ≤ weekBucketEnd now i))).length)) :
    (mkWeekEntry sorted now i).litersPerDay = none := by
  unfold mkWeekEntry
  dsimp only
  rw [if_neg h]

/-- The rate of the last interval is `0` whenever the final two sorted
readings do not span strictly positive time. -/
lemma mkLastInterval_rate_zero (S : List Reading)
    (h : (S.getD (S.length - 1) dfltReading).date ≤
         (S.getD (S.length - 2) dfltReading).date) :
    (mkLastInterval S).litersPerDay = 0 := by
  unfold mkLastInterval
  dsimp only
  rw [if_neg (not_lt.mpr (daysBetween_nonpos h))]
  exact round1_zero

/-- **C6 (confirmed).**  Non-positive spans never raise and always produce a
rate of `0` where they can occur: (1) if the last interval's endpoints do
not increase in time its `litersPerDay` is `0`; (2) if the first and last
qualifying year readings do not increase in time the year average is `0`;
(3)–(4) a month or week bucket that is assigned at all always has a
delimiting pair spanning strictly positive time, so the degenerate case is
impossible there (the entry would otherwise be "no data", and the code
path performs no division in that branch).  The embedding is a total
function, so no input raises. -/
theorem claimC6_thm :
    (∀ (l : List Reading) (now : Now) (li : LastInterval),
      (calculateStats l now).lastInterval = some li →
      li.endDate ≤ li.startDate → li.litersPerDay = 0) ∧
    (∀ (l : List Reading) (now : Now) (a : Reading) (mid : List Reading) (b : Reading),
      yearReadingsOf l now = a :: mid ++ [b] → b.date ≤ a.date →
      ∃ ys, (calculateStats l now).yearStats = some ys ∧ ys.avgLitersPerDay = 0) ∧
    (∀ (l : List Reading) (now : Now) (i : Int),
      0 < (monthBefore l now i).length →
      (monthBefore l now i).length < (monthThrough l now i).length →
      (lastOf (monthBefore l now i)).date < (lastOf (monthThrough l now i)).date) ∧
    (∀ (l : List Reading) (now : Now) (i : Int),
      0 < (weekBefore l now i).length →
      (weekBefore l now i).length < (weekThrough l now i).length →
      (lastOf (weekBefore l now i)).date < (lastOf (weekThrough l now i)).date) := by
  refine ⟨?_, ?_, ?_, ?_⟩
  · intro l now li hsome hle
    by_cases hl : l.length < 2
    · unfold calculateStats at hsome
      rw [if_pos hl] at hsome
      exact absurd hsome (by simp)
    · unfold calculateStats at hsome
      rw [if_neg hl] at hsome
      have hli : li = mkLastInterval (sortReadings l) := (Option.some.inj hsome).symm
      subst hli
      exact mkLastInterval_rate_zero _ hle
  · intro l now a mid b hdec hba
    refine ⟨_, yearStats_of_decomp l now a mid b hdec, ?_⟩
    dsimp only
    rw [if_neg (not_lt.mpr (daysBetween_nonpos hba))]
  · intro l now i h0 hlen
    exact month_bracket_lt (sortReadings_sorted l) _ _ h0 hlen
  · intro l now i h0 hlen
    exact week_bracket_lt (sortReadings_sorted l) _ _ h0 hlen

/-- Witness for C6: two readings at the very same instant make the last
interval's rate `0`. -/
theorem claimC6_witness :
    ∃ li, (calculateStats [rJun1, rJun1b] nowJun).lastInterval = some li ∧
      li.endDate ≤ li.startDate ∧ li.litersPerDay = 0 := by
  have hsome : (calculateStats [rJun1, rJun1b] nowJun).lastInterval =
      some (mkLastInterval [rJun1, rJun1b]) := by
    rw [calculateStats_of_sorted nowJun (by decide) (by decide)]
  have hle : (mkLastInterval [rJun1, rJun1b]).endDate ≤
      (mkLastInterval [rJun1, rJun1b]).startDate := by decide
  exact ⟨_, hsome, hle, claimC6_thm.1 [rJun1, rJun1b] nowJun _ hsome hle⟩

/-- **C7, counterexample.**  Two readings sharing a timestamp but with
different meter values: swapping them changes the sign of the last
interval's liter count, so shuffling the input can change the result. -/
theorem claimC7_counterexample :
    List.Perm [rJun1, rJun1b] [rJun1b, rJun1] ∧
    (calculateStats [rJun1, rJun1b] nowJun).lastInterval ≠
      (calculateStats [rJun1b, rJun1] nowJun).lastInterval := by
  constructor
  · exact List.Perm.swap rJun1b rJun1 []
  · rw [calculateStats_of_sorted nowJun (by decide) (by decide),
        calculateStats_of_sorted nowJun (by decide) (by decide)]
    intro h
    have h2 := congrArg LastInterval.liters (Option.some.inj h)
    have e1 : (mkLastInterval [rJun1, rJun1b]).liters = 1000 := by
      with_unfolding_all rfl
    have e2 : (mkLastInterval [rJun1b, rJun1]).liters = -1000 := by
      with_unfolding_all rfl
    rw [e1, e2] at h2
    norm_num at h2

/-- **C7 (amended).**  When all timestamps in the input are pairwise
distinct, every permutation of the input yields the identical result; with
duplicate timestamps the stable sort preserves input order among ties, so
order can leak into the output. -/
theorem claimC7_thm (l m : List Reading) (now : Now)
    (hperm : List.Perm l m) (hnd : (l.map Reading.date).Nodup) :
    calculateStats l now = calculateStats m now := by
  have hsort : sortReadings l = sortReadings m := by
    have hlt : ∀ (x : List Reading), List.Perm x l →
        (sortReadings x).Pairwise (fun a b => a.date < b.date) := by
      intro x hx
      have hsorted := sortReadings_sorted x
      have hndx : ((sortReadings x).map Reading.date).Nodup := by
        have hp : List.Perm ((sortReadings x).map Reading.date) (l.map Reading.date) :=
          ((sortReadings_perm x).trans hx).map Reading.date
        exact hp.nodup_iff.mpr hnd
      have hne : (sortReadings x).Pairwise (fun a b => a.date ≠ b.date) :=
        (List.pairwise_map.mp hndx)
      exact (hsorted.and hne).imp (fun hab => lt_of_le_of_ne hab.1 hab.2)
    haveI : IsAntisymm Reading (fun a b => a.date < b.date) :=
      ⟨fun a b h1 h2 => absurd h2 (by omega)⟩
    refine List.eq_of_perm_of_sorted ?_ (hlt l (List.Perm.refl l)) (hlt m hperm.symm)
    exact (sortReadings_perm l).trans (hperm.trans (sortReadings_perm m).symm)
  unfold calculateStats
  rw [hperm.length_eq, hsort]

/-- Witness for C7: swapping two distinct-timestamp readings. -/
theorem claimC7_witness :
    List.Perm [rV100, rV103] [rV103, rV100] ∧
    (([rV100, rV103] : List Reading).map Reading.date).Nodup ∧
    calculateStats [rV100, rV103] nowJun = calculateStats [rV103, rV100] nowJun := by
  have hp : List.Perm [rV100, rV103] [rV103, rV100] := List.Perm.swap rV103 rV100 []
  exact ⟨hp, by decide, claimC7_thm [rV100, rV103] [rV103, rV100] nowJun hp (by decide)⟩

/-- **C8, counterexample.**  Readings on 2024-01-01 and 2024-02-15
(`now = 2025-01-01`): the first is strictly before every monthly bucket's
start and the second at or before every bucket's end, yet the March 2024
bucket (position 1) has no data — coverage does not propagate past the
bucket that contains the second reading. -/
theorem claimC8_counterexample :
    (∀ i : Fin 12, rJan.date < monthBucketStart nowNY i.1 ∧
      rFeb15.date ≤ monthBucketEnd nowNY i.1) ∧
    ((calculateStats [rJan, rFeb15] nowNY).monthlyData.map
      (fun e => e.litersPerDay))[1]? = some none := by
  constructor
  · decide
  · rw [calculateStats_of_sorted nowNY (by decide) (by decide)]
    with_unfolding_all rfl

/-- **C8 (amended).**  For each windowed series, a bucket is guaranteed a
defined value when some reading lies before its start (strictly for the
monthly window, at-or-before for the weekly one) and some reading lies
inside the bucket's bracket range (`[start, end]` for months,
`(start, end]` for weeks); buckets without a reading in range can stay
"no data" even when readings exist on both sides of the whole window. -/
theorem claimC8_thm :
    (∀ (l : List Reading) (now : Now) (i : Int),
      (∃ r ∈ l, r.date < monthBucketStart now i) →
      (∃ r ∈ l, monthBucketStart now i ≤ r.date ∧ r.date ≤ monthBucketEnd now i) →
      ((mkMonthEntry (sortReadings l) now i).litersPerDay).isSome = true) ∧
    (∀ (l : List Reading) (now : Now) (i : Int),
      (∃ r ∈ l, r.date ≤ weekBucketStart now i) →
      (∃ r ∈ l, weekBucketStart now i < r.date ∧ r.date ≤ weekBucketEnd now i) →
      ((mkWeekEntry (sortReadings l) now i).litersPerDay).isSome = true) := by
  constructor
  · rintro l now i ⟨r1, hr1l, hr1⟩ ⟨r2, hr2l, hr2a, hr2b⟩
    have hr1S : r1 ∈ (sortReadings l).filter
        (fun r => decide (r.date < monthBucketStart now i)) :=
      List.mem_filter.mpr ⟨mem_sortReadings.mpr hr1l, by simpa using hr1⟩
    have h0 : 0 < ((sortReadings l).filter
        (fun r => decide (r.date < monthBucketStart now i))).length :=
      List.length_pos.mpr (List.ne_nil_of_mem hr1S)
    have hlen := length_filter_lt_of_witness (sortReadings l)
      (p := fun r => decide (r.date < monthBucketStart now i))
      (q := fun r => decide (r.date ≤ monthBucketEnd now i))
      (fun a _ ha => by
        simp only [decide_eq_true_eq] at *
        omega)
      (mem_sortReadings.mpr hr2l) (by simpa using hr2b)
      (by simpa using not_lt.mpr hr2a)
    have hlt := month_bracket_lt (sortReadings_sorted l)
      (monthBucketStart now i) (monthBucketEnd now i) h0 hlen
    rw [mkMonthEntry_pos _ _ _ h0 hlen hlt]
    rfl
  · rintro l now i ⟨r1, hr1l, hr1⟩ ⟨r2, hr2l, hr2a, hr2b⟩
    have hr1S : r1 ∈ (sortReadings l).filter
        (fun r => decide (r.date ≤ weekBucketStart now i)) :=
      List.mem_filter.mpr ⟨mem_sortReadings.mpr hr1l, by simpa using hr1⟩
    have h0 : 0 < ((sortReadings l).filter
        (fun r => decide (r.date ≤ weekBucketStart now i))).length :=
      List.length_pos.mpr (List.ne_nil_of_mem hr1S)
    have hlen := length_filter_lt_of_witness (sortReadings l)
      (p := fun r => decide (r.date ≤ weekBucketStart now i))
      (q := fun r => decide (r.date ≤ weekBucketEnd now i))
      (fun a _ ha => by
        simp only [decide_eq_true_eq] at *
        omega)
      (mem_sortReadings.mpr hr2l) (by simpa using hr2b)
      (by simpa using not_le.mpr hr2a)
    have hlt := week_bracket_lt (sortReadings_sorted l)
      (weekBucketStart now i) (weekBucketEnd now i) h0 hlen
    rw [mkWeekEntry_pos _ _ _ h0 hlen hlt]
    rfl

/-- Witness for C8: a reading before June 2024 and one inside it. -/
theorem claimC8_witness :
    (∃ r ∈ [rV100, rJun10], r.date < monthBucketStart nowJun15 0) ∧
    ((mkMonthEntry (sortReadings [rV100, rJun10]) nowJun15 0).litersPerDay).isSome = true :=
  ⟨⟨rV100, by decide⟩, claimC8_thm.1 [rV100, rJun10] nowJun15 0
    ⟨rV100, by simp, by decide⟩ ⟨rJun10, by simp, by decide, by decide⟩⟩

/-- **C9 (confirmed).**  The normalization contract: the sorted list used
by all four stages is a permutation of the caller's collection (the source
sorts a spread copy `[...readings]`, so the caller's array itself is left
untouched), it is ordered ascending by timestamp, and the sort is stable:
readings sharing any timestamp appear in exactly their input order.  In
this pure embedding no stage can mutate the shared list, matching the
source's stages which only `filter` and index into it. -/
theorem claimC9_thm (l : List Reading) :
    List.Perm (sortReadings l) l ∧
    (sortReadings l).Pairwise (fun a b => a.date ≤ b.date) ∧
    ∀ t : Int, (sortReadings l).filter (fun r => decide (r.date = t)) =
      l.filter (fun r => decide (r.date = t)) := by
  refine ⟨sortReadings_perm l, sortReadings_sorted l, ?_⟩
  intro t
  have hpair : (l.filter (fun r => decide (r.date = t))).Pairwise
      (fun a b => decide (a.date ≤ b.date) = true) := by
    apply List.pairwise_of_forall_mem_list
    intro a ha b hb
    have hat : a.date = t := by simpa using (List.mem_filter.mp ha).2
    have hbt : b.date = t := by simpa using (List.mem_filter.mp hb).2
    simp [hat, hbt]
  have hsub : List.Sublist (l.filter (fun r => decide (r.date = t))) (sortReadings l) :=
    List.sublist_mergeSort
      (fun a b c hab hbc => by
        simp only [decide_eq_true_eq] at *; omega)
      (fun a b => by
        simp only [Bool.or_eq_true, decide_eq_true_eq]; omega)
      hpair (List.filter_sublist l)
  have hsub2 : List.Sublist (l.filter (fun r => decide (r.date = t)))
      ((sortReadings l).filter (fun r => decide (r.date = t))) := by
    have h1 := hsub.filter (fun r => decide (r.date = t))
    have h2 : (l.filter (fun r => decide (r.date = t))).filter
        (fun r => decide (r.date = t)) = l.filter (fun r => decide (r.date = t)) := by
      apply List.filter_eq_self.mpr
      intro a ha
      exact (List.mem_filter.mp ha).2
    rwa [h2] at h1
  have hlen : ((sortReadings l).filter (fun r => decide (r.date = t))).length =
      (l.filter (fun r => decide (r.date = t))).length := by
    rw [← List.countP_eq_length_filter, ← List.countP_eq_length_filter]
    exact (sortReadings_perm l).countP_eq _
  exact (hsub2.eq_of_length hlen.symm).symm

/-! ### Metadata-independence machinery (C10) -/

/-- Filtering by a timestamp-determined predicate commutes with projecting
away the metadata. -/
lemma map_proj_filter {S T : List Reading} (h : S.map proj = T.map proj)
    {p : Reading → Bool} (hp : ∀ r s : Reading, r.date = s.date → p r = p s) :
    (S.filter p).map proj = (T.filter p).map proj := by
  induction S generalizing T with
  | nil =>
    cases T with
    | nil => rfl
    | cons b T => simp at h
  | cons a S ih =>
    cases T with
    | nil => simp at h
    | cons b T =>
      simp only [List.map_cons, List.cons.injEq] at h
      obtain ⟨hab, ht⟩ := h
      have hd : a.date = b.date := congrArg Prod.fst hab
      have hpab : p a = p b := hp a b hd
      by_cases hpa : p a = true
      · have hpb : p b = true := hpab ▸ hpa
        simp only [List.filter_cons, hpa, hpb, if_true, List.map_cons]
        exact List.cons_eq_cons.mpr ⟨hab, ih ht⟩
      · have hpb : ¬ p b = true := fun hc => hpa (hpab ▸ hc)
        simp only [List.filter_cons, if_neg hpa, if_neg hpb]
        exact ih ht

/-- The guarded indexing `arr[k]` commutes with the projection. -/
lemma proj_getD (L : List Reading) (k : Nat) :
    proj (L.getD k dfltReading) = (L.map proj).getD k (proj dfltReading) := by
  induction L generalizing k with
  | nil => simp [List.getD]
  | cons a t ih =>
    cases k with
    | zero => rfl
    | succ k => simpa [List.getD] using ih k

lemma map_proj_length {S T : List Reading} (h : S.map proj = T.map proj) :
    S.length = T.length := by
  have := congrArg List.length h
  simpa using this

lemma proj_getD_eq {S T : List Reading} (h : S.map proj = T.map proj) (k : Nat) :
    proj (S.getD k dfltReading) = proj (T.getD k dfltReading) := by
  rw [proj_getD, proj_getD, h]

lemma mkLastInterval_congr {S T : List Reading} (h : S.map proj = T.map proj) :
    mkLastInterval S = mkLastInterval T := by
  have hlen : S.length = T.length := map_proj_length h
  have e1 := proj_getD_eq h (T.length - 1)
  have e2 := proj_getD_eq h (T.length - 2)
  have d1 : (S.getD (T.length - 1) dfltReading).date =
      (T.getD (T.length - 1) dfltReading).date := congrArg Prod.fst e1
  have v1 : (S.getD (T.length - 1) dfltReading).value =
      (T.getD (T.length - 1) dfltReading).value := congrArg Prod.snd e1
  have d2 : (S.getD (T.length - 2) dfltReading).date =
      (T.getD (T.length - 2) dfltReading).date := congrArg Prod.fst e2
  have v2 : (S.getD (T.length - 2) dfltReading).value =
      (T.getD (T.length - 2) dfltReading).value := congrArg Prod.snd e2
  unfold mkLastInterval
  dsimp only
  rw [hlen, d1, v1, d2, v2]

lemma mkYearStats_congr {S T : List Reading} (now : Now)
    (h : S.map proj = T.map proj) :
    mkYearStats S now = mkYearStats T now := by
  have hy := map_proj_filter h
    (p := fun r => decide (startOfYearMs now ≤ r.date))
    (fun r s hd => by simp [hd])
  have hylen : (S.filter (fun r => decide (startOfYearMs now ≤ r.date))).length =
      (T.filter (fun r => decide (startOfYearMs now ≤ r.date))).length :=
    map_proj_length hy
  unfold mkYearStats
  dsimp only
  rw [hylen]
  by_cases h2 : 2 ≤ (T.filter (fun r => decide (startOfYearMs now ≤ r.date))).length
  · rw [if_pos h2, if_pos h2]
    have e0 := proj_getD_eq hy 0
    have eN := proj_getD_eq hy
      ((T.filter (fun r => decide (startOfYearMs now ≤ r.date))).length - 1)
    have d0 : ((S.filter (fun r => decide (startOfYearMs now ≤ r.date))).getD 0
        dfltReading).date = ((T.filter (fun r => decide (startOfYearMs now ≤ r.date))).getD 0
        dfltReading).date := congrArg Prod.fst e0
    have v0 : ((S.filter (fun r => decide (startOfYearMs now ≤ r.date))).getD 0
        dfltReading).value = ((T.filter (fun r => decide (startOfYearMs now ≤ r.date))).getD 0
        dfltReading).value := congrArg Prod.snd e0
    have dN : ((S.filter (fun r => decide (startOfYearMs now ≤ r.date))).getD
        ((T.filter (fun r => decide (startOfYearMs now ≤ r.date))).length - 1)
        dfltReading).date = ((T.filter (fun r => decide (startOfYearMs now ≤ r.date))).getD
        ((T.filter (fun r => decide (startOfYearMs now ≤ r.date))).length - 1)
        dfltReading).date := congrArg Prod.fst eN
    have vN : ((S.filter (fun r => decide (startOfYearMs now ≤ r.date))).getD
        ((T.filter (fun r => decide (startOfYearMs now ≤ r.date))).length - 1)
        dfltReading).value = ((T.filter (fun r => decide (startOfYearMs now ≤ r.date))).getD
        ((T.filter (fun r => decide (startOfYearMs now ≤ r.date))).length - 1)
        dfltReading).value := congrArg Prod.snd eN
    rw [d0, v0, dN, vN]
  · rw [if_neg h2, if_neg h2]

lemma mkMonthEntry_congr {S T : List Reading} (now : Now) (i : Int)
    (h : S.map proj = T.map proj) :
    mkMonthEntry S now i = mkMonthEntry T now i := by
  have hP := map_proj_filter h
    (p := fun r => decide (r.date < monthBucketStart now i))
    (fun r s hd => by simp [hd])
  have hQ := map_proj_filter h
    (p := fun r => decide (r.date ≤ monthBucketEnd now i))
    (fun r s hd => by simp [hd])
  have hPlen := map_proj_length hP
  have hQlen := map_proj_length hQ
  have eP := proj_getD_eq hP
    ((T.filter (fun r => decide (r.date < monthBucketStart now i))).length - 1)
  have eQ := proj_getD_eq hQ
    ((T.filter (fun r => decide (r.date ≤ monthBucketEnd now i))).length - 1)
  have dP : ((S.filter (fun r => decide (r.date < monthBucketStart now i))).getD
      ((T.filter (fun r => decide (r.date < monthBucketStart now i))).length - 1)
      dfltReading).date = ((T.filter (fun r => decide (r.date < monthBucketStart now i))).getD
      ((T.filter (fun r => decide (r.date < monthBucketStart now i))).length - 1)
      dfltReading).date := congrArg Prod.fst eP
  have vP : ((S.filter (fun r => decide (r.date < monthBucketStart now i))).getD
      ((T.filter (fun r => decide (r.date < monthBucketStart now i))).length - 1)
      dfltReading).value = ((T.filter (fun r => decide (r.date < monthBucketStart now i))).getD
      ((T.filter (fun r => decide (r.date < monthBucketStart now i))).length - 1)
      dfltReading).value := congrArg Prod.snd eP
  have dQ : ((S.filter (fun r => decide (r.date ≤ monthBucketEnd now i))).getD
      ((T.filter (fun r => decide (r.date ≤ monthBucketEnd now i))).length - 1)
      dfltReading).date = ((T.filter (fun r => decide (r.date ≤ monthBucketEnd now i))).getD
      ((T.filter (fun r => decide (r.date ≤ monthBucketEnd now i))).length - 1)
      dfltReading).date := congrArg Prod.fst eQ
  have vQ : ((S.filter (fun r => decide (r.date ≤ monthBucketEnd now i))).getD
      ((T.filter (fun r => decide (r.date ≤ monthBucketEnd now i))).length - 1)
      dfltReading).value = ((T.filter (fun r => decide (r.date ≤ monthBucketEnd now i))).getD
      ((T.filter (fun r => decide (r.date ≤ monthBucketEnd now i))).length - 1)
      dfltReading).value := congrArg Prod.snd eQ
  unfold mkMonthEntry
  dsimp only
  rw [hPlen, hQlen, dP, vP, dQ, vQ]

lemma mkWeekEntry_congr {S T : List Reading} (now : Now) (i : Int)
    (h : S.map proj = T.map proj) :
    mkWeekEntry S now i = mkWeekEntry T now i := by
  have hP := map_proj_filter h
    (p := fun r => decide (r.date ≤ weekBucketStart now i))
    (fun r s hd => by simp [hd])
  have hQ := map_proj_filter h
    (p := fun r => decide (r.date ≤ weekBucketEnd now i))
    (fun r s hd => by simp [hd])
  have hPlen := map_proj_length hP
  have hQlen := map_proj_length hQ
  have eP := proj_getD_eq hP
    ((T.filter (fun r => decide (r.date ≤ weekBucketStart now i))).length - 1)
  have eQ := proj_getD_eq hQ
    ((T.filter (fun r => decide (r.date ≤ weekBucketEnd now i))).length - 1)
  have dP : ((S.filter (fun r => decide (r.date ≤ weekBucketStart now i))).getD
      ((T.filter (fun r => decide (r.date ≤ weekBucketStart now i))).length - 1)
      dfltReading).date = ((T.filter (fun r => decide (r.date ≤ weekBucketStart now i))).getD
      ((T.filter (fun r => decide (r.date ≤ weekBucketStart now i))).length - 1)
      dfltReading).date := congrArg Prod.fst eP
  have vP : ((S.filter (fun r => decide (r.date ≤ weekBucketStart now i))).getD
      ((T.filter (fun r => decide (r.date ≤ weekBucketStart now i))).length - 1)
      dfltReading).value = ((T.filter (fun r => decide (r.date ≤ weekBucketStart now i))).getD
      ((T.filter (fun r => decide (r.date ≤ weekBucketStart now i))).length - 1)
      dfltReading).value := congrArg Prod.snd eP
  have dQ : ((S.filter (fun r => decide (r.date ≤ weekBucketEnd now i))).getD
      ((T.filter (fun r => decide (r.date ≤ weekBucketEnd now i))).length - 1)
      dfltReading).date = ((T.filter (fun r => decide (r.date ≤ weekBucketEnd now i))).getD
      ((T.filter (fun r => decide (r.date ≤ weekBucketEnd now i))).length - 1)
      dfltReading).date := congrArg Prod.fst eQ
  have vQ : ((S.filter (fun r => decide (r.date ≤ weekBucketEnd now i))).getD
      ((T.filter (fun r => decide (r.date ≤ weekBucketEnd now i))).length - 1)
      dfltReading).value = ((T.filter (fun r => decide (r.date ≤ weekBucketEnd now i))).getD
      ((T.filter (fun r => decide (r.date ≤ weekBucketEnd now i))).length - 1)
      dfltReading).value := congrArg Prod.snd eQ
  unfold mkWeekEntry
  dsimp only
  rw [hPlen, hQlen, dP, vP, dQ, vQ]

/-- The sorted projections agree whenever the input projections do: the
comparator consults only the timestamp. -/
lemma sortReadings_map_proj {l m : List Reading} (h : l.map proj = m.map proj) :
    (sortReadings l).map proj = (sortReadings m).map proj := by
  have e : ∀ x : List Reading, (sortReadings x).map proj =
      (x.map proj).mergeSort (fun a b => decide (a.1 ≤ b.1)) := by
    intro x
    exact List.map_mergeSort (fun a _ b _ => rfl)
  rw [e, e, h]

/-- **C10 (confirmed).**  Two inputs agreeing on every reading's timestamp
and value (in order) but differing arbitrarily in `id`, `confidence`,
`notes` or `image` yield identical statistics in every field. -/
theorem claimC10_thm (l m : List Reading) (now : Now)
    (h : l.map proj = m.map proj) :
    calculateStats l now = calculateStats m now := by
  have hST : (sortReadings l).map proj = (sortReadings m).map proj :=
    sortReadings_map_proj h
  have hlen : l.length = m.length := map_proj_length h
  unfold calculateStats
  rw [hlen]
  by_cases h2 : m.length < 2
  · rw [if_pos h2, if_pos h2]
  · rw [if_neg h2, if_neg h2]
    have hLI := mkLastInterval_congr hST
    have hYS := mkYearStats_congr now hST
    have hME : ∀ i : Int, mkMonthEntry (sortReadings l) now i =
        mkMonthEntry (sortReadings m) now i := fun i => mkMonthEntry_congr now i hST
    have hWE : ∀ i : Int, mkWeekEntry (sortReadings l) now i =
        mkWeekEntry (sortReadings m) now i := fun i => mkWeekEntry_congr now i hST
    simp only [hLI, hYS, hME, hWE]

/-- Witness for C10: the same two timestamp/value pairs with completely
different metadata. -/
theorem claimC10_witness :
    ([rV100, rV103].map proj = [rMeta1, rMeta2].map proj) ∧
    calculateStats [rV100, rV103] nowJun = calculateStats [rMeta1, rMeta2] nowJun :=
  ⟨by decide, claimC10_thm [rV100, rV103] [rMeta1, rMeta2] nowJun (by decide)⟩

/-- **C1, counterexample.**  A reading lying exactly on a month bucket's
start is excluded from that bucket's `before` set: with readings on
2024-06-01 and 2024-06-10 and `now = 2024-06-15`, the claim's rule
("before = latest reading with timestamp ≤ bucketStart", here the June 1
reading, with the June 10 reading as a strictly later `through`) would
assign the June bucket a rate, but the code filters with a strict `<` and
returns "no data". -/
theorem claimC1_counterexample :
    (∃ r ∈ [rJun1, rJun10], r.date ≤ monthBucketStart nowJun15 0) ∧
    (∃ r ∈ [rJun1, rJun10], r.date ≤ monthBucketEnd nowJun15 0 ∧
      monthBucketStart nowJun15 0 < r.date) ∧
    (mkMonthEntry (sortReadings [rJun1, rJun10]) nowJun15 0).litersPerDay = none := by
  refine ⟨⟨rJun1, by simp, by decide⟩, ⟨rJun10, by simp, by decide, by decide⟩, ?_⟩
  rw [sortReadings_of_sorted (by decide)]
  with_unfolding_all rfl

/-- **C1 (amended).**  For every bucket of both windows: the `before`
endpoint is the latest reading with timestamp **strictly before** the
bucket start for the monthly window (at-or-before for the weekly window);
the `through` endpoint is the latest reading at-or-before the bucket end;
the bucket is assigned a rate exactly when `before` exists and strictly
more readings fall at-or-before the bucket end than in the `before` set
(`through` is then a strictly later reading in the sort order), in which
case the rate is `(through.value − before.value) × 1000` over the days
elapsed between the two endpoints, rounded to one decimal. -/
theorem claimC1_thm :
    (∀ (l : List Reading) (now : Now) (i : Int),
      (monthBefore l now i ≠ [] →
        lastOf (monthBefore l now i) ∈ monthBefore l now i ∧
        ∀ r ∈ monthBefore l now i, r.date ≤ (lastOf (monthBefore l now i)).date) ∧
      (monthThrough l now i ≠ [] →
        lastOf (monthThrough l now i) ∈ monthThrough l now i ∧
        ∀ r ∈ monthThrough l now i, r.date ≤ (lastOf (monthThrough l now i)).date) ∧
      (((mkMonthEntry (sortReadings l) now i).litersPerDay).isSome = true ↔
        monthBefore l now i ≠ [] ∧
        (monthBefore l now i).length < (monthThrough l now i).length) ∧
      (monthBefore l now i ≠ [] →
        (monthBefore l now i).length < (monthThrough l now i).length →
        (mkMonthEntry (sortReadings l) now i).litersPerDay = some (round1 (
          ((lastOf (monthThrough l now i)).value -
            (lastOf (monthBefore l now i)).value) * 1000 /
          daysBetween (lastOf (monthBefore l now i)).date
            (lastOf (monthThrough l now i)).date)))) ∧
    (∀ (l : List Reading) (now : Now) (i : Int),
      (weekBefore l now i ≠ [] →
        lastOf (weekBefore l now i) ∈ weekBefore l now i ∧
        ∀ r ∈ weekBefore l now i, r.date ≤ (lastOf (weekBefore l now i)).date) ∧
      (weekThrough l now i ≠ [] →
        lastOf (weekThrough l now i) ∈ weekThrough l now i ∧
        ∀ r ∈ weekThrough l now i, r.date ≤ (lastOf (weekThrough l now i)).date) ∧
      (((mkWeekEntry (sortReadings l) now i).litersPerDay).isSome = true ↔
        weekBefore l now i ≠ [] ∧
        (weekBefore l now i).length < (weekThrough l now i).length) ∧
      (weekBefore l now i ≠ [] →
        (weekBefore l now i).length < (weekThrough l now i).length →
        (mkWeekEntry (sortReadings l) now i).litersPerDay = some (round1 (
          ((lastOf (weekThrough l now i)).value -
            (lastOf (weekBefore l now i)).value) * 1000 /
          daysBetween (lastOf (weekBefore l now i)).date
            (lastOf (weekThrough l now i)).date)))) := by
  constructor
  · intro l now i
    have hsortP : (monthBefore l now i).Pairwise (fun a b => a.date ≤ b.date) :=
      (sortReadings_sorted l).filter _
    have hsortQ : (monthThrough l now i).Pairwise (fun a b => a.date ≤ b.date) :=
      (sortReadings_sorted l).filter _
    refine ⟨fun hne => ⟨lastOf_mem hne, fun r hr => date_le_lastOf hsortP hr⟩,
      fun hne => ⟨lastOf_mem hne, fun r hr => date_le_lastOf hsortQ hr⟩, ?_, ?_⟩
    · constructor
      · intro hs
        by_cases hA : monthBefore l now i = []
        · exfalso
          rw [mkMonthEntry_none (sortReadings l) now i (fun hc => by
            have h1 := hc.1
            rw [show (sortReadings l).filter
                (fun r => decide (r.date < monthBucketStart now i)) =
                monthBefore l now i from rfl, hA] at h1
            simp at h1)] at hs
          simp at hs
        · by_cases hB : (monthBefore l now i).length < (monthThrough l now i).length
          · exact ⟨hA, hB⟩
          · exfalso
            rw [mkMonthEntry_none (sortReadings l) now i (fun hc => hB hc.2)] at hs
            simp at hs
      · rintro ⟨hA, hB⟩
        have h0 : 0 < (monthBefore l now i).length := List.length_pos.mpr hA
        have hlt := month_bracket_lt (sortReadings_sorted l)
          (monthBucketStart now i) (monthBucketEnd now i) h0 hB
        rw [mkMonthEntry_pos (sortReadings l) now i h0 hB hlt]
        rfl
    · intro hA hB
      have h0 : 0 < (monthBefore l now i).length := List.length_pos.mpr hA
      have hlt := month_bracket_lt (sortReadings_sorted l)
        (monthBucketStart now i) (monthBucketEnd now i) h0 hB
      exact mkMonthEntry_pos (sortReadings l) now i h0 hB hlt
  · intro l now i
    have hsortP : (weekBefore l now i).Pairwise (fun a b => a.date ≤ b.date) :=
      (sortReadings_sorted l).filter _
    have hsortQ : (weekThrough l now i).Pairwise (fun a b => a.date ≤ b.date) :=
      (sortReadings_sorted l).filter _
    refine ⟨fun hne => ⟨lastOf_mem hne, fun r hr => date_le_lastOf hsortP hr⟩,
      fun hne => ⟨lastOf_mem hne, fun r hr => date_le_lastOf hsortQ hr⟩, ?_, ?_⟩
    · constructor
      · intro hs
        by_cases hA : weekBefore l now i = []
        · exfalso
          rw [mkWeekEntry_none (sortReadings l) now i (fun hc => by
            have h1 := hc.1
            rw [show (sortReadings l).filter
                (fun r => decide (r.date ≤ weekBucketStart now i)) =
                weekBefore l now i from rfl, hA] at h1
            simp at h1)] at hs
          simp at hs
        · by_cases hB : (weekBefore l now i).length < (weekThrough l now i).length
          · exact ⟨hA, hB⟩
          · exfalso
            rw [mkWeekEntry_none (sortReadings l) now i (fun hc => hB hc.2)] at hs
            simp at hs
      · rintro ⟨hA, hB⟩
        have h0 : 0 < (weekBefore l now i).length := List.length_pos.mpr hA
        have hlt := week_bracket_lt (sortReadings_sorted l)
          (weekBucketStart now i) (weekBucketEnd now i) h0 hB
        rw [mkWeekEntry_pos (sortReadings l) now i h0 hB hlt]
        rfl
    · intro hA hB
      have h0 : 0 < (weekBefore l now i).length := List.length_pos.mpr hA
      have hlt := week_bracket_lt (sortReadings_sorted l)
        (weekBucketStart now i) (weekBucketEnd now i) h0 hB
      exact mkWeekEntry_pos (sortReadings l) now i h0 hB hlt

/-- Witness for C1: a reading before June 2024 and one inside it make the
June bucket carry the bracketed rate. -/
theorem claimC1_witness :
    monthBefore [rV100, rJun10] nowJun15 0 ≠ [] ∧
    (monthBefore [rV100, rJun10] nowJun15 0).length <
      (monthThrough [rV100, rJun10] nowJun15 0).length ∧
    (mkMonthEntry (sortReadings [rV100, rJun10]) nowJun15 0).litersPerDay =
      some (round1 (
        ((lastOf (monthThrough [rV100, rJun10] nowJun15 0)).value -
          (lastOf (monthBefore [rV100, rJun10] nowJun15 0)).value) * 1000 /
        daysBetween (lastOf (monthBefore [rV100, rJun10] nowJun15 0)).date
          (lastOf (monthThrough [rV100, rJun10] nowJun15 0)).date)) := by
  have hs : sortReadings [rV100, rJun10] = [rV100, rJun10] :=
    sortReadings_of_sorted (by decide)
  have hA : monthBefore [rV100, rJun10] nowJun15 0 ≠ [] := by
    unfold monthBefore
    rw [hs]
    decide
  have hB : (monthBefore [rV100, rJun10] nowJun15 0).length <
      (monthThrough [rV100, rJun10] nowJun15 0).length := by
    unfold monthBefore monthThrough
    rw [hs]
    decide
  exact ⟨hA, hB, (claimC1_thm.1 [rV100, rJun10] nowJun15 0).2.2.2 hA hB⟩

end Wassermelder
